import Mathlib

/-!
Verification of the CodeClarity repository's response-normalization,
section-parsing, API-route and conversation-state logic.

The TypeScript sources are shallowly embedded over `List Char` strings:

* `src/services/github.ts` — `getCodeExplanation`'s JSON validation /
  normalization step (`validateResponse`, `parseFallback`,
  `getCodeExplanationNormalize`).
* `src/components/code-explanation-display.tsx` — `parseAnalysis`
  (section-label pattern matching, bullet lists, Learn More links).
* `src/app/api/ask-sensay-expert/route.ts` — the `POST` handler
  (`sensayPOST`) and the module-initialization logging.
* `src/app/page.tsx` — the page-level state handlers
  (`handleSendChatMessage`, `handleClear`, request resolution).

`JSON.parse` is a JavaScript library function taking arbitrary strings to
JSON values or throwing; it is modelled abstractly as an `Option JsonValue`
outcome (or an oracle function `Str → Option JsonValue` where a call site
parses a string it computed).  All other behavior is translated directly
from the source.
-/

/-- JavaScript strings, modelled as lists of characters. -/
abbrev Str := List Char

/-- The characters matched by the JavaScript `\s` class and trimmed by
`String.prototype.trim` (ASCII subset; the sources only meet ASCII
whitespace). -/
def jsWhitespace (c : Char) : Bool :=
  c = ' ' || c = '\t' || c = '\n' || c = '\r' || c = Char.ofNat 11 || c = Char.ofNat 12

/-- JavaScript `String.prototype.trim`. -/
def jsTrim (s : Str) : Str :=
  ((s.dropWhile jsWhitespace).reverse.dropWhile jsWhitespace).reverse

/-- Does `pat` occur in `s` starting at the current position? -/
def subAt : Str → Str → Bool
  | _, [] => true
  | [], _ :: _ => false
  | c :: s, d :: pat => c = d && subAt s pat

/-- Index of the first occurrence of `pat` in `s`, if any. -/
def findSub : Str → Str → Option Nat
  | s, pat =>
    match s with
    | [] => if pat = [] then some 0 else none
    | _ :: rest =>
      if subAt s pat then some 0
      else (findSub rest pat).map (· + 1)

/-- Case-insensitive first-occurrence search (models a JavaScript regex
literal with the `i` flag over ASCII pattern text; `Char.toLower` is
length-preserving, so indices in the lowered strings are indices in the
originals). -/
def findSubCI (s pat : Str) : Option Nat :=
  findSub (s.map Char.toLower) (pat.map Char.toLower)

/-- Everything in `s` strictly before the first occurrence of `pat`
(all of `s` when `pat` does not occur). -/
def takeUntilSub (s pat : Str) : Str :=
  s.take ((findSub s pat).getD s.length)

/-- Does `pat` occur anywhere in `s`? -/
def containsSub (s pat : Str) : Bool :=
  (findSub s pat).isSome

/-- JSON values, as produced by a successful `JSON.parse`.  Numbers are
modelled as integers: no claim depends on fractional values, and every
predicate the sources apply to numeric fields (`typeof x === 'string'`,
truthiness) is insensitive to the fractional part. -/
inductive JsonValue where
  | null
  | bool (b : Bool)
  | num (n : Int)
  | str (s : Str)
  | arr (elems : List JsonValue)
  | obj (fields : List (Str × JsonValue))

/-- Object-field lookup.  `JSON.parse` keeps the last of duplicate keys, so
the lookup returns the last binding for `k`. -/
def objLookup (fields : List (Str × JsonValue)) (k : Str) : Option JsonValue :=
  match fields with
  | [] => none
  | (k', v) :: rest =>
    match objLookup rest k with
    | some w => some w
    | none => if k' = k then some v else none

/-- JavaScript truthiness of a JSON value. -/
def jsTruthy (v : JsonValue) : Bool :=
  match v with
  | .null => false
  | .bool b => b
  | .num n => n ≠ 0
  | .str s => s ≠ []
  | .arr _ => true
  | .obj _ => true

/-- Property access `v[k]` where `v` is known not to be `null`:
objects yield their binding (or `undefined`, modelled `none`); all other
non-null values have no such property, yielding `undefined`. -/
def propGet (v : JsonValue) (k : Str) : Option JsonValue :=
  match v with
  | .obj fields => objLookup fields k
  | _ => none

/-- Property access `v[k]` with JavaScript error behavior: reading a
property of `null` throws a `TypeError` (modelled `Except.error`). -/
def getProp (v : JsonValue) (k : Str) : Except Unit (Option JsonValue) :=
  match v with
  | .null => .error ()
  | .obj fields => .ok (objLookup fields k)
  | _ => .ok none

/-- `typeof v[k] === 'string'` for a truthy receiver `v`. -/
def isStrProp (v : JsonValue) (k : Str) : Bool :=
  match propGet v k with
  | some (.str _) => true
  | _ => false

/-- Is the value a JSON object? -/
def isObjVal (v : JsonValue) : Bool :=
  match v with
  | .obj _ => true
  | _ => false

/-! ## `src/services/github.ts`: `getCodeExplanation` normalization -/

/-- The normalized analysis record built by `getCodeExplanation`
(`CodeExplanation` in `src/services/github.ts`).  The string-array fields
hold the string elements kept by the filters; the struct-array fields hold
the JSON objects kept by the filters (the source keeps the original
elements, extra properties included). -/
structure CodeExplanation where
  language : Str
  explanation_markdown : Str
  warnings : List Str
  style_suggestions : List Str
  code_smells : List Str
  security_vulnerabilities : List Str
  bug_suggestions : List JsonValue
  alternative_suggestions : List JsonValue

/-- Default explanation substituted when `explanation_markdown` is missing
or blank: `"### Error\nCould not extract explanation."`. -/
def errorDefaultExplanation : Str :=
  ("### Error\nCould not extract explanation.").data

/-- Filter predicate of
`bug_suggestions.filter(b => b && typeof b.bug === 'string' && typeof b.fix_suggestion === 'string')`.
The truthiness guard makes the subsequent property reads safe (they would
throw only on `null`, which is falsy). -/
def bugKeep (b : JsonValue) : Bool :=
  jsTruthy b && isStrProp b ("bug").data && isStrProp b ("fix_suggestion").data

/-- Filter predicate of
`alternative_suggestions.filter(a => a && typeof a.description === 'string' && typeof a.code === 'string')`. -/
def altKeep (a : JsonValue) : Bool :=
  jsTruthy a && isStrProp a ("description").data && isStrProp a ("code").data

/-- Keep only the string elements of a parsed array
(`xs.filter(x => typeof x === 'string')`), as strings. -/
def keepStrings (xs : List JsonValue) : List Str :=
  xs.filterMap fun x => match x with | .str s => some s | _ => none

/-- A string field kept when it is a non-blank string, else a default
(`typeof f === 'string' && f.trim() ? f : dflt`). -/
def stringFieldOr (f : Option JsonValue) (dflt : Str) : Str :=
  match f with
  | some (.str s) => if jsTrim s ≠ [] then s else dflt
  | _ => dflt

/-- An array-of-string field (`Array.isArray(f) ? f.filter(string) : []`). -/
def stringArrayField (f : Option JsonValue) : List Str :=
  match f with
  | some (.arr xs) => keepStrings xs
  | _ => []

/-- A struct-array field (`Array.isArray(f) ? f.filter(keep) : []`). -/
def structArrayField (f : Option JsonValue) (keep : JsonValue → Bool) : List JsonValue :=
  match f with
  | some (.arr xs) => xs.filter keep
  | _ => []

/-- The validation / coercion block of `getCodeExplanation`
(`src/services/github.ts` lines 184–202) applied to the value produced by
`JSON.parse`.  `Except.error` models a thrown error: a `TypeError` from
reading a property of a parsed `null`, or the explicit
`throw new Error("Parsed response is missing a valid 'explanation_markdown' field.")`
fired when the explanation is absent or equals its error default. -/
def validateResponse (parsed : JsonValue) : Except Unit CodeExplanation := do
  let language ← getProp parsed ("language").data
  let explanation ← getProp parsed ("explanation_markdown").data
  let warnings ← getProp parsed ("warnings").data
  let styles ← getProp parsed ("style_suggestions").data
  let smells ← getProp parsed ("code_smells").data
  let vulns ← getProp parsed ("security_vulnerabilities").data
  let bugs ← getProp parsed ("bug_suggestions").data
  let alts ← getProp parsed ("alternative_suggestions").data
  let explanationValue := stringFieldOr explanation errorDefaultExplanation
  if explanationValue = [] ∨ explanationValue = errorDefaultExplanation then
    .error ()
  else
    .ok {
      language := stringFieldOr language ("Unknown").data
      explanation_markdown := explanationValue
      warnings := stringArrayField warnings
      style_suggestions := stringArrayField styles
      code_smells := stringArrayField smells
      security_vulnerabilities := stringArrayField vulns
      bug_suggestions := structArrayField bugs bugKeep
      alternative_suggestions := structArrayField alts altKeep
    }

/-- The fixed text prepended to the raw payload in the parse-failure
fallback's `explanation_markdown`. -/
def fallbackHeader : Str :=
  ("### ⚠️ Error Parsing Response\nThe AI's response was not in the expected JSON format. Displaying raw output:\n\n---\n\n").data

/-- The single warning entry of the parse-failure fallback. -/
def parseFailureWarning : Str :=
  ("The AI response could not be parsed correctly. The structure might be broken.").data

/-- The parse-failure fallback object returned from the inner `catch`
(`src/services/github.ts` lines 212–222); `content` is the original
(uncleaned) completion text. -/
def parseFallback (content : Str) : CodeExplanation where
  language := ("Unknown").data
  explanation_markdown := fallbackHeader ++ content
  warnings := [parseFailureWarning]
  style_suggestions := []
  code_smells := []
  security_vulnerabilities := []
  bug_suggestions := []
  alternative_suggestions := []

/-- `content.replace(/^```json\s*|```$/g, '').trim()`: strip a leading
```` ```json ```` fence (with trailing whitespace) and a trailing
```` ``` ```` fence, then trim. -/
def cleanContent (content : Str) : Str :=
  let fenceOpen := ("```json").data
  let fenceClose := ("```").data
  let s1 := if fenceOpen.isPrefixOf content
    then (content.drop fenceOpen.length).dropWhile jsWhitespace
    else content
  let s2 := if fenceClose.isSuffixOf s1
    then s1.take (s1.length - fenceClose.length)
    else s1
  jsTrim s2

/-- The whole normalization step of `getCodeExplanation` for a received
completion `content`: the inner `try` block parses the cleaned content and
validates it, and its `catch` returns `parseFallback content` on any
thrown error (`JSON.parse` failure, `TypeError` on a parsed `null`, or the
missing-explanation throw).  `parseResult` is the outcome of
`JSON.parse(cleanContent content)`. -/
def getCodeExplanationNormalize (parseResult : Option JsonValue) (content : Str) :
    CodeExplanation :=
  match parseResult with
  | none => parseFallback content
  | some v =>
    match validateResponse v with
    | .ok r => r
    | .error _ => parseFallback content

/-- The normalization step with `JSON.parse` supplied as an oracle
`jsonParse` (a string-to-value partial function, `none` modelling a
throw). -/
def normalizeCompletion (jsonParse : Str → Option JsonValue) (content : Str) :
    CodeExplanation :=
  getCodeExplanationNormalize (jsonParse (cleanContent content)) content

/-! ## `src/components/code-explanation-display.tsx`: `parseAnalysis` -/

/-- Split a string on a separator character (JavaScript `split`). -/
def splitOnChar (sep : Char) : Str → List Str
  | [] => [[]]
  | c :: rest =>
    let r := splitOnChar sep rest
    if c = sep then [] :: r
    else
      match r with
      | [] => [[c]]
      | h :: t => (c :: h) :: t

/-- `item.replace(/^-\s*/, '')`: drop one leading `-` bullet marker and the
whitespace after it. -/
def stripBullet : Str → Str
  | '-' :: rest => rest.dropWhile jsWhitespace
  | s => s

/-- `content.split('\n').map(i => i.replace(/^-\s*/, '').trim()).filter(i => i)`. -/
def listItems (content : Str) : List Str :=
  ((splitOnChar '\n' content).map fun i => jsTrim (stripBullet i)).filter (· ≠ [])

/-- The bolded section label `**<key>**:` searched for by the section
regex. -/
def sectionLabel (key : Str) : Str :=
  ("**").data ++ key ++ ("**:").data

/-- The section regex
`` new RegExp(`\\*\\*${key}\\*\\*:\\s*([\\s\\S]*?)(?=\\n\\n\\*\\*|$)`, 'i') ``
applied with `.match`, then `match[1].trim()` behind the
`if (match && match[1])` guard.  The leftmost occurrence of the label is
found case-insensitively; greedy `\s*` takes the maximal whitespace run;
the lazy group then extends to the first position where the lookahead
holds, i.e. up to the first `"\n\n**"` or to the end of the string; an
empty group (`match[1]` falsy) yields no section. -/
def matchSection (key : Str) (md : Str) : Option Str :=
  match findSubCI md (sectionLabel key) with
  | none => none
  | some i =>
    let tail := md.drop (i + (sectionLabel key).length)
    let afterWs := tail.dropWhile jsWhitespace
    let grp := takeUntilSub afterWs (("\n\n**").data)
    if grp = [] then none else some (jsTrim grp)

/-- How `parseAnalysis` renders one matched section's content: scalar
sections keep the text; list sections bullet-split; the three JSON-array
sections (bug list, alternative list, syntax-error list) parse bracketed
content. -/
inductive SectionKind where
  | scalar
  | strList
  | learnMore
  | structList

/-- One entry of the component's `sectionMappings` table (title and key
coincide in the source; icons and render flags are presentation-only). -/
structure SectionMapping where
  key : Str
  kind : SectionKind

/-- The `sectionMappings` table of `parseAnalysis`, in source order. -/
def sectionMappings : List SectionMapping :=
  [⟨("Detected Language").data, .scalar⟩,
   ⟨("Comprehensive Analysis").data, .scalar⟩,
   ⟨("Style & Formatting Suggestions").data, .strList⟩,
   ⟨("Code Smell Detection").data, .strList⟩,
   ⟨("Security Vulnerability Checks").data, .strList⟩,
   ⟨("Potential Bug Identification & Fix Suggestions").data, .structList⟩,
   ⟨("Alternative Code Approaches").data, .structList⟩,
   ⟨("General Warnings & Suggestions").data, .strList⟩,
   ⟨("Learn More Links").data, .learnMore⟩,
   ⟨("Syntax Errors").data, .structList⟩]

/-- Content of one parsed section. -/
inductive SectionContent where
  | scalar (text : Str)
  | strList (items : List Str)
  | structList (elems : List JsonValue)

/-- One parsed section (`ParsedSection` in the source, minus icons and
render flags). -/
structure ParsedSection where
  title : Str
  content : SectionContent

/-- Build one section's content from its matched (trimmed) text.
For the JSON-array kinds: bracketed content is `JSON.parse`d — an array
becomes a struct list, any other parsed value falls back to the
one-element list `[content]`, and a parse throw falls back to the
bullet-split list; unbracketed content is bullet-split. -/
def processSection (jsonParse : Str → Option JsonValue) (kind : SectionKind)
    (content : Str) : SectionContent :=
  match kind with
  | .scalar => .scalar content
  | .strList => .strList (listItems content)
  | .learnMore => .strList (listItems content)
  | .structList =>
    if content.head? = some '[' ∧ content.getLast? = some ']' then
      match jsonParse content with
      | some (.arr xs) => .structList xs
      | some _ => .strList [content]
      | none => .strList (listItems content)
    else .strList (listItems content)

/-- A Learn More dialog entry. -/
structure LearnMoreLink where
  title : Str
  url : Str

/-- The fixed search-URL template the component builds links from. -/
def googleSearchBase : Str :=
  ("https://www.google.com/search?q=").data

/-- Characters `encodeURIComponent` leaves unescaped besides
alphanumerics: `- _ . ! ~ * ' ( )`. -/
def uriUnreservedMark (c : Char) : Bool :=
  c = '-' || c = '_' || c = '.' || c = '!' || c = '~' || c = '*' ||
    c = Char.ofNat 39 || c = '(' || c = ')'

/-- Characters `encodeURIComponent` leaves unescaped. -/
def uriUnreserved (c : Char) : Bool :=
  c.isAlphanum || uriUnreservedMark c

/-- Uppercase hexadecimal digit. -/
def hexDigitUpper (n : Nat) : Char :=
  match n with
  | 0 => '0'
  | 1 => '1'
  | 2 => '2'
  | 3 => '3'
  | 4 => '4'
  | 5 => '5'
  | 6 => '6'
  | 7 => '7'
  | 8 => '8'
  | 9 => '9'
  | 10 => 'A'
  | 11 => 'B'
  | 12 => 'C'
  | 13 => 'D'
  | 14 => 'E'
  | 15 => 'F'
  | _ => '0'

/-- UTF-8 encoding of a code point. -/
def utf8Bytes (n : Nat) : List Nat :=
  if n < 128 then [n]
  else if n < 2048 then [192 + n / 64, 128 + n % 64]
  else if n < 65536 then [224 + n / 4096, 128 + (n / 64) % 64, 128 + n % 64]
  else [240 + n / 262144, 128 + (n / 4096) % 64, 128 + (n / 64) % 64, 128 + n % 64]

/-- `%HH` escape of one byte. -/
def percentByte (b : Nat) : Str :=
  ['%', hexDigitUpper (b / 16), hexDigitUpper (b % 16)]

/-- `encodeURIComponent` on one character. -/
def encodeChar (c : Char) : Str :=
  if uriUnreserved c then [c]
  else ((utf8Bytes c.toNat).map percentByte).flatten

/-- JavaScript `encodeURIComponent`. -/
def encodeURIComponent (s : Str) : Str :=
  (s.map encodeChar).flatten

/-- One derived Learn More link:
`{title: query, url: "https://www.google.com/search?q=" + encodeURIComponent(query)}`. -/
def mkLearnMoreLink (query : Str) : LearnMoreLink where
  title := query
  url := googleSearchBase ++ encodeURIComponent query

/-- The Learn More key of `sectionMappings`. -/
def learnMoreKey : Str :=
  ("Learn More Links").data

/-- The links stored with `setLearnMoreLinksForDialog` while the section
loop processes the Learn More mapping: set only when the section matched
with at least one item, to `items.map(mkLink).slice(0, 10)`.  The source
performs this assignment inside the loop; it is extracted here as the
equivalent pure computation over the same `matchSection` outcome. -/
def extractLearnMoreLinks (md : Str) : Option (List LearnMoreLink) :=
  match matchSection learnMoreKey md with
  | none => none
  | some content =>
    let items := listItems content
    if items = [] then none
    else some ((items.map mkLearnMoreLink).take 10)

/-- Result of `parseAnalysis`: the section list plus the Learn More links
it stores for the dialog (if any). -/
structure ParseAnalysisResult where
  sections : List ParsedSection
  learnMoreLinks : Option (List LearnMoreLink)

/-- `parseAnalysis` of `code-explanation-display.tsx` on a non-null
markdown string: match every mapping against the full markdown in table
order (the source never consumes matched text — the removal is commented
out), process each matched section, and if nothing matched and the
markdown is non-blank, fall back to a single raw section carrying the
whole input. -/
def parseAnalysis (md : Str) (jsonParse : Str → Option JsonValue) :
    ParseAnalysisResult where
  sections :=
    let matched := sectionMappings.foldl
      (fun acc m =>
        match matchSection m.key md with
        | none => acc
        | some content => acc ++ [⟨m.key, processSection jsonParse m.kind content⟩])
      []
    if matched.isEmpty && !(jsTrim md).isEmpty then
      [⟨("Raw Analysis").data, .scalar md⟩]
    else matched
  learnMoreLinks := extractLearnMoreLinks md

/-! ## `src/app/api/ask-sensay-expert/route.ts`: the `POST` handler -/

/-- Lowercase hexadecimal digit (for `JSON.stringify` control escapes). -/
def hexDigitLower (n : Nat) : Char :=
  match n with
  | 10 => 'a'
  | 11 => 'b'
  | 12 => 'c'
  | 13 => 'd'
  | 14 => 'e'
  | 15 => 'f'
  | m => hexDigitUpper m

/-- `JSON.stringify` escape of one string character. -/
def escapeJsonChar (c : Char) : Str :=
  if c = '"' then ['\\', '"']
  else if c = '\\' then ['\\', '\\']
  else if c = Char.ofNat 8 then ['\\', 'b']
  else if c = '\t' then ['\\', 't']
  else if c = '\n' then ['\\', 'n']
  else if c = Char.ofNat 12 then ['\\', 'f']
  else if c = '\r' then ['\\', 'r']
  else if c.toNat < 32 then
    ['\\', 'u', '0', '0', hexDigitLower (c.toNat / 16), hexDigitLower (c.toNat % 16)]
  else [c]

/-- Decimal digits of a positive number (fuel-based structural recursion;
the fuel `n + 1` always suffices). -/
def natDigitsAux : Nat → Nat → Str
  | 0, _ => []
  | fuel + 1, n =>
    if n = 0 then []
    else natDigitsAux fuel (n / 10) ++ [hexDigitUpper (n % 10)]

/-- Decimal rendering of a natural number. -/
def natToStr (n : Nat) : Str :=
  if n = 0 then ['0'] else natDigitsAux (n + 1) n

/-- Decimal rendering of an integer. -/
def intToStr (i : Int) : Str :=
  if i < 0 then '-' :: natToStr i.natAbs else natToStr i.toNat

/-- Join strings with a separator. -/
def joinSep (sep : Str) : List Str → Str
  | [] => []
  | [x] => x
  | x :: xs => x ++ sep ++ joinSep sep xs

mutual

/-- `JSON.stringify` of a JSON value (objects reaching it come from
`JSON.parse`, so keys are unique). -/
def jsonStringify : JsonValue → Str
  | .null => ("null").data
  | .bool true => ("true").data
  | .bool false => ("false").data
  | .num n => intToStr n
  | .str s => '"' :: (s.map escapeJsonChar).flatten ++ ['"']
  | .arr xs => '[' :: joinSep [','] (stringifyElems xs) ++ [']']
  | .obj fs => Char.ofNat 123 :: joinSep [','] (stringifyFields fs) ++ [Char.ofNat 125]

/-- `JSON.stringify` of array elements. -/
def stringifyElems : List JsonValue → List Str
  | [] => []
  | x :: xs => jsonStringify x :: stringifyElems xs

/-- `JSON.stringify` of object fields. -/
def stringifyFields : List (Str × JsonValue) → List Str
  | [] => []
  | (k, v) :: fs =>
    (jsonStringify (.str k) ++ [':'] ++ jsonStringify v) :: stringifyFields fs

end

mutual

/-- JavaScript string coercion `String(v)` (template-literal
interpolation): arrays join their coerced elements with commas (null
elements becoming empty), objects render as `[object Object]`. -/
def jsToString : JsonValue → Str
  | .null => ("null").data
  | .bool true => ("true").data
  | .bool false => ("false").data
  | .num n => intToStr n
  | .str s => s
  | .arr xs => joinSep [','] (jsToStringElems xs)
  | .obj _ => ("[object Object]").data

/-- Array element coercion inside `Array.prototype.join`. -/
def jsToStringElems : List JsonValue → List Str
  | [] => []
  | .null :: xs => [] :: jsToStringElems xs
  | x :: xs => jsToString x :: jsToStringElems xs

end

/-- The route's configuration, read from `process.env` (a variable is
`none` when unset). -/
structure SensayEnv where
  apiKey : Option Str
  replicaId : Option Str
  userId : Option Str
  apiVersion : Option Str

/-- Falsiness of an environment variable (`undefined` or the empty
string). -/
def envFalsy : Option Str → Bool
  | none => true
  | some s => s.isEmpty

/-- The two replica-id placeholder values the route rejects. -/
def replicaPlaceholderA : Str :=
  ("YOUR_SENSAY_REPLICA_ID_HERE").data

/-- The second rejected replica-id placeholder (a hardcoded sample id). -/
def replicaPlaceholderB : Str :=
  ("cbb19521-47b2-4371-b907-40f174f954f8").data

/-- The replica-id guard
`!currentSensayReplicaId || currentSensayReplicaId === 'YOUR_SENSAY_REPLICA_ID_HERE' || currentSensayReplicaId === 'cbb19521-...'`. -/
def replicaIdRejected (r : Option Str) : Bool :=
  envFalsy r ||
    (match r with
     | none => true
     | some s => decide (s = replicaPlaceholderA) || decide (s = replicaPlaceholderB))

/-- `process.env.SENSAY_API_VERSION || '2025-03-25'`. -/
def sensayApiVersionOf (env : SensayEnv) : Str :=
  match env.apiVersion with
  | some s => if s.isEmpty then ("2025-03-25").data else s
  | none => ("2025-03-25").data

/-- `https://api.sensay.io/v1`. -/
def sensayApiBaseUrl : Str :=
  ("https://api.sensay.io/v1").data

/-- Truthiness of a possibly-undefined JavaScript value. -/
def optTruthy : Option JsonValue → Bool
  | none => false
  | some v => jsTruthy v

/-- The JSON body the route answers with (`NextResponse.json`): an error
message and/or an `expertAnswer` value, plus the HTTP status. -/
structure RouteResponse where
  status : Nat
  error : Option Str
  expertAnswer : Option JsonValue

/-- The outbound provider call the route makes (URL, auth headers,
prompt), recorded so theorems can talk about whether and what was sent. -/
structure OutboundRequest where
  url : Str
  orgSecretHeader : Str
  userIdHeader : Str
  apiVersionHeader : Str
  content : Str

/-- One `POST` invocation's observable outcome: the response returned to
the page plus the provider call made, if any. -/
structure RouteResult where
  response : RouteResponse
  sentRequest : Option OutboundRequest

/-- The upstream behavior for the single possible `fetch`: the promise
rejects (network failure), or a response arrives with `ok` (2xx),
`status`, `statusText`, and a body whose JSON parse outcome is `body`
(`none` when parsing it throws). -/
inductive NetOutcome where
  | throws (msg : Str)
  | resp (ok : Bool) (status : Nat) (statusText : Str) (body : Option JsonValue)

/-- `'Sensay API key not configured.'` -/
def msgApiKeyMissing : Str :=
  ("Sensay API key not configured.").data

/-- `'Sensay Replica ID not configured.'` -/
def msgReplicaIdMissing : Str :=
  ("Sensay Replica ID not configured.").data

/-- `'Sensay User ID not configured.'` -/
def msgUserIdMissing : Str :=
  ("Sensay User ID not configured.").data

/-- `'Missing code or question in the request.'` -/
def msgMissingCodeOrQuestion : Str :=
  ("Missing code or question in the request.").data

/-- `'No expert answer received or unexpected format from Sensay API.'` -/
def msgUnexpectedFormat : Str :=
  ("No expert answer received or unexpected format from Sensay API.").data

/-- `'Failed to parse error response from Sensay API'` (substituted error
body when the upstream error body is not JSON). -/
def msgFailedParseErrorBody : Str :=
  ("Failed to parse error response from Sensay API").data

/-- Sentinel for the engine's `TypeError` message on a property read of
`null` (exact engine text is environment-specific and never inspected). -/
def msgNullPropertyRead : Str :=
  ("TypeError: Cannot read properties of null").data

/-- Sentinel for the engine's `SyntaxError` message when
`await response.json()` fails on a 2xx body (environment-specific text). -/
def msgJsonParseFailure : Str :=
  ("SyntaxError: Unexpected token in JSON").data

/-- The prompt the route builds:
`` `Regarding the following code snippet:\n\`\`\`\n${code}\n\`\`\`\nUser's question: ${question}` ``. -/
def sensayPromptContent (code question : JsonValue) : Str :=
  ("Regarding the following code snippet:\n```\n").data ++ jsToString code ++
    ("\n```\nUser's question: ").data ++ jsToString question

/-- The response construction after the `fetch` (`route.ts` lines 75–108):
everything from the upstream status check to the success/format branches
depends only on the upstream outcome. -/
def sensayUpstreamResponse (net : NetOutcome) : RouteResponse :=
  match net with
  | .throws m => ⟨500, some m, none⟩
  | .resp ok status statusText respBody =>
    if !ok then
      let errorBody := respBody.getD
        (.obj [(("error").data, .str msgFailedParseErrorBody)])
      match getProp errorBody ("error").data with
      | .error _ => ⟨500, some msgNullPropertyRead, none⟩
      | .ok ev =>
        let errorDetail :=
          match ev with
          | some (.str s) => s
          | _ => jsonStringify errorBody
        ⟨status,
          some (("Sensay API error: ").data ++ statusText ++
            (" - ").data ++ errorDetail),
          none⟩
    else
      match respBody with
      | none => ⟨500, some msgJsonParseFailure, none⟩
      | some data =>
        match getProp data ("success").data, getProp data ("content").data with
        | .error _, _ => ⟨500, some msgNullPropertyRead, none⟩
        | _, .error _ => ⟨500, some msgNullPropertyRead, none⟩
        | .ok successV, .ok contentV =>
          if optTruthy successV && optTruthy contentV then
            ⟨200, none, contentV⟩
          else if optTruthy contentV then
            ⟨200, none, contentV⟩
          else
            ⟨500, some msgUnexpectedFormat, none⟩

/-- The `POST` handler of `src/app/api/ask-sensay-expert/route.ts`.
`reqJson` is the outcome of `await req.json()` (`Except.error` carries the
thrown message); `net` is the upstream behavior of the one possible
`fetch`.  The outer `try`/`catch` turns any thrown error into a 500
response carrying the error's message. -/
def sensayPOST (env : SensayEnv) (reqJson : Except Str JsonValue)
    (net : NetOutcome) : RouteResult :=
  if envFalsy env.apiKey then
    ⟨⟨500, some msgApiKeyMissing, none⟩, none⟩
  else if replicaIdRejected env.replicaId then
    ⟨⟨500, some msgReplicaIdMissing, none⟩, none⟩
  else if envFalsy env.userId then
    ⟨⟨500, some msgUserIdMissing, none⟩, none⟩
  else
    match reqJson with
    | .error m => ⟨⟨500, some m, none⟩, none⟩
    | .ok body =>
      match body with
      | .null => ⟨⟨500, some msgNullPropertyRead, none⟩, none⟩
      | _ =>
        let code := propGet body ("code").data
        let question := propGet body ("question").data
        if !optTruthy code || !optTruthy question then
          ⟨⟨400, some msgMissingCodeOrQuestion, none⟩, none⟩
        else
          let codeV := code.getD .null
          let questionV := question.getD .null
          let sent : OutboundRequest :=
            { url := sensayApiBaseUrl ++ ("/replicas/").data ++
                ((env.replicaId).getD []) ++ ("/chat/completions").data
              orgSecretHeader := (env.apiKey).getD []
              userIdHeader := (env.userId).getD []
              apiVersionHeader := sensayApiVersionOf env
              content := sensayPromptContent codeV questionV }
          ⟨sensayUpstreamResponse net, some sent⟩

/-- Template rendering of a possibly-undefined environment variable
(`undefined` prints as the text `undefined`). -/
def showOptEnv : Option Str → Str
  | none => ("undefined").data
  | some s => s

/-- The module-initialization `console.log` lines of the route
(`route.ts` lines 12–17).  The API-key line prints
`sensayApiKey.substring(0, 10)` — the first ten characters of the
credential — whenever the key is set. -/
def moduleInitLogs (env : SensayEnv) : List Str :=
  [("[Sensay API Route] Initializing...").data,
   ("[Sensay API Route] SENSAY_API_KEY loaded: ").data ++
     (if !envFalsy env.apiKey then
        ("Exists (starts with: ").data ++
          ((env.apiKey).getD []).take 10 ++ ("...)").data
      else ("MISSING_OR_EMPTY").data),
   ("[Sensay API Route] SENSAY_REPLICA_ID loaded: \"").data ++
     showOptEnv env.replicaId ++ [Char.ofNat 34],
   ("[Sensay API Route] SENSAY_USER_ID loaded: \"").data ++
     showOptEnv env.userId ++ [Char.ofNat 34],
   ("[Sensay API Route] SENSAY_API_VERSION: \"").data ++
     sensayApiVersionOf env ++ [Char.ofNat 34],
   ("[Sensay API Route] SENSAY_API_BASE_URL: \"").data ++
     sensayApiBaseUrl ++ [Char.ofNat 34]]

/-! ## `src/app/page.tsx`: page state, chat handlers, clear -/

/-- Chat roles. -/
inductive ChatRole where
  | user
  | assistant
deriving DecidableEq

/-- A chat turn (`ChatMessage` in `page.tsx`).  The `id` field
(`crypto.randomUUID()`) is an opaque fresh token never inspected by any
behavior under verification, so it is omitted from the model. -/
structure ChatMessage where
  role : ChatRole
  content : Str
deriving DecidableEq

/-- The in-flight action discriminator (`currentAction`). -/
inductive PageAction where
  | explain
  | chat
deriving DecidableEq

/-- The `Home` component's state variables. -/
structure PageState where
  sensayAnalysisResult : Option Str
  isSensayLoading : Bool
  sensayError : Option Str
  currentAction : Option PageAction
  currentCodeSnippet : Str
  chatHistory : List ChatMessage
  currentUserChatMessage : Str
deriving DecidableEq

/-- The state on page load (every `useState` initial value). -/
def initialPageState : PageState :=
  ⟨none, false, none, none, [], [], []⟩

/-- The synchronous part of `handleSensayRequest` before its `await`:
set loading, clear the error, record the action, and for a general
explanation also clear the previous analysis. -/
def handleSensayRequestStart (s : PageState) (isGeneral : Bool) : PageState :=
  let s1 := { s with
    isSensayLoading := true
    sensayError := none
    currentAction := some (if isGeneral then .explain else .chat) }
  if isGeneral then { s1 with sensayAnalysisResult := none } else s1

/-- The continuation of `handleSensayRequest` when a non-general (chat)
request resolves with `response.ok` (`page.tsx` line 72 plus the
`finally` block): the assistant's answer is appended to whatever
`chatHistory` holds at resolution time — the functional updater
`prev => [...prev, msg]` runs against the current state, and no
request-is-still-current check exists anywhere in the handler. -/
def resolveChatSuccess (s : PageState) (expertAnswer : Str) : PageState :=
  { s with
    chatHistory := s.chatHistory ++ [⟨.assistant, expertAnswer⟩]
    isSensayLoading := false
    currentAction := none }

/-- `handleSendChatMessage`: guard on a blank message, append the user
turn, fire the request (its synchronous part), clear the input box. -/
def handleSendChatMessage (s : PageState) : PageState :=
  if (jsTrim s.currentUserChatMessage).isEmpty then s
  else
    let s1 := { s with
      chatHistory := s.chatHistory ++ [⟨.user, s.currentUserChatMessage⟩] }
    let s2 := handleSensayRequestStart s1 false
    { s2 with currentUserChatMessage := [] }

/-- `handleClear`: every state variable back to its initial value. -/
def handleClear (_s : PageState) : PageState :=
  ⟨none, false, none, none, [], [], []⟩

/-- Typing a message into the chat box (`onChange` of the textarea). -/
def typeChatMessage (s : PageState) (m : Str) : PageState :=
  { s with currentUserChatMessage := m }

/-- Typing then sending one chat message. -/
def sendChat (s : PageState) (m : Str) : PageState :=
  handleSendChatMessage (typeChatMessage s m)

/-- A sequence of typed-and-sent chat messages. -/
def sendAllChat (s : PageState) (msgs : List Str) : PageState :=
  msgs.foldl sendChat s

/-! ## Theorems -/

/-- The record built by the validation block for a non-null parsed value,
field by field. -/
def validatedRecord (v : JsonValue) : CodeExplanation where
  language := stringFieldOr (propGet v (("language").data)) (("Unknown").data)
  explanation_markdown :=
    stringFieldOr (propGet v (("explanation_markdown").data)) errorDefaultExplanation
  warnings := stringArrayField (propGet v (("warnings").data))
  style_suggestions := stringArrayField (propGet v (("style_suggestions").data))
  code_smells := stringArrayField (propGet v (("code_smells").data))
  security_vulnerabilities :=
    stringArrayField (propGet v (("security_vulnerabilities").data))
  bug_suggestions := structArrayField (propGet v (("bug_suggestions").data)) bugKeep
  alternative_suggestions :=
    structArrayField (propGet v (("alternative_suggestions").data)) altKeep

theorem validateResponse_eq (v : JsonValue) (hv : v ≠ .null) :
    validateResponse v =
      if (validatedRecord v).explanation_markdown = [] ∨
          (validatedRecord v).explanation_markdown = errorDefaultExplanation
      then .error ()
      else .ok (validatedRecord v) := by
  cases v with
  | null => exact absurd rfl hv
  | bool b => rfl
  | num n => rfl
  | str s => rfl
  | arr xs => rfl
  | obj fs => rfl

theorem validateResponse_ok_eq (v : JsonValue) (r : CodeExplanation)
    (h : validateResponse v = .ok r) : r = validatedRecord v := by
  have hv : v ≠ .null := by
    intro hnull
    rw [hnull] at h
    exact Except.noConfusion (show (Except.error () : Except Unit CodeExplanation) = .ok r from h)
  rw [validateResponse_eq v hv] at h
  by_cases hc : (validatedRecord v).explanation_markdown = [] ∨
      (validatedRecord v).explanation_markdown = errorDefaultExplanation
  · rw [if_pos hc] at h
    exact Except.noConfusion h
  · rw [if_neg hc] at h
    exact (Except.ok.inj h).symm

theorem structArrayField_all (f : Option JsonValue) (keep : JsonValue → Bool) :
    ((structArrayField f keep).all keep) = true := by
  unfold structArrayField
  match f with
  | none => rfl
  | some (.arr xs) =>
    exact List.all_eq_true.mpr fun a ha => (List.mem_filter.mp ha).2
  | some .null | some (.bool _) | some (.num _) | some (.str _) | some (.obj _) => rfl

/-- Every bug entry kept by the filter has both `bug` and `fix_suggestion`
as strings. -/
def bugComplete (b : JsonValue) : Bool :=
  isStrProp b (("bug").data) && isStrProp b (("fix_suggestion").data)

/-- Every alternative entry kept by the filter has both `description` and
`code` as strings. -/
def altComplete (a : JsonValue) : Bool :=
  isStrProp a (("description").data) && isStrProp a (("code").data)

theorem bugKeep_implies_complete (b : JsonValue) (h : bugKeep b = true) :
    bugComplete b = true := by
  unfold bugKeep at h
  unfold bugComplete
  simp only [Bool.and_eq_true] at h ⊢
  exact ⟨h.1.2, h.2⟩

theorem altKeep_implies_complete (a : JsonValue) (h : altKeep a = true) :
    altComplete a = true := by
  unfold altKeep at h
  unfold altComplete
  simp only [Bool.and_eq_true] at h ⊢
  exact ⟨h.1.2, h.2⟩

/-- C1: Normalizer totality for full-analysis.  For every completion
string and every outcome of `JSON.parse` on its cleaned form, the
normalization step of `getCodeExplanation` returns a `CodeExplanation`
whose sequence fields are all present as (possibly empty) arrays of the
right element shape — the string-array fields hold strings by
construction, and every kept bug / alternative entry carries its two
required string sub-fields — and the step never throws past this
boundary: the inner `catch` absorbs every thrown error (`JSON.parse`
failure, property read on a parsed `null`, missing explanation) into the
fallback object, so `normalizeCompletion` is a total function into
`CodeExplanation`. -/
theorem normalizer_totality_full_analysis (jsonParse : Str → Option JsonValue)
    (content : Str) :
    (((normalizeCompletion jsonParse content).bug_suggestions.all bugComplete) = true) ∧
    (((normalizeCompletion jsonParse content).alternative_suggestions.all altComplete) = true) := by
  unfold normalizeCompletion getCodeExplanationNormalize
  cases jsonParse (cleanContent content) with
  | none => exact ⟨rfl, rfl⟩
  | some v =>
    dsimp only
    cases hv : validateResponse v with
    | error e => exact ⟨rfl, rfl⟩
    | ok r =>
      rw [validateResponse_ok_eq v r hv]
      constructor
      · exact List.all_eq_true.mpr fun b hb =>
          bugKeep_implies_complete b
            (List.all_eq_true.mp (structArrayField_all _ bugKeep) b hb)
      · exact List.all_eq_true.mpr fun a ha =>
          altKeep_implies_complete a
            (List.all_eq_true.mp (structArrayField_all _ altKeep) a ha)

theorem jsTrim_ne_nil_of (e : Str) (h : jsTrim e ≠ []) : e ≠ [] := by
  intro he
  rw [he] at h
  exact h rfl

/-- C2: Struct-array completeness rule.  When the parsed response is an
object with a valid explanation whose `bug_suggestions` and
`alternative_suggestions` fields are arrays of objects mixing complete
entries (both required sub-fields present as strings) and incomplete ones
(a sub-field missing or of a non-string type), normalization keeps exactly
the complete entries, in their original relative order, and drops the
incomplete ones. -/
theorem struct_array_completeness (fields : List (Str × JsonValue)) (content : Str)
    (e : Str) (xs ys : List JsonValue)
    (he : objLookup fields (("explanation_markdown").data) = some (.str e))
    (het : jsTrim e ≠ [])
    (hed : e ≠ errorDefaultExplanation)
    (hxs : objLookup fields (("bug_suggestions").data) = some (.arr xs))
    (hys : objLookup fields (("alternative_suggestions").data) = some (.arr ys))
    (hxo : (xs.all isObjVal) = true)
    (hyo : (ys.all isObjVal) = true) :
    (getCodeExplanationNormalize (some (.obj fields)) content).bug_suggestions
        = xs.filter bugComplete ∧
    (getCodeExplanationNormalize (some (.obj fields)) content).alternative_suggestions
        = ys.filter altComplete := by
  have hv : (JsonValue.obj fields) ≠ .null := by intro h; cases h
  have hexp : (validatedRecord (.obj fields)).explanation_markdown = e := by
    show stringFieldOr (propGet (.obj fields) (("explanation_markdown").data))
        errorDefaultExplanation = e
    rw [show propGet (.obj fields) (("explanation_markdown").data)
        = objLookup fields (("explanation_markdown").data) from rfl, he]
    show (if jsTrim e ≠ [] then e else errorDefaultExplanation) = e
    exact if_pos het
  have hcond : ¬((validatedRecord (.obj fields)).explanation_markdown = [] ∨
      (validatedRecord (.obj fields)).explanation_markdown = errorDefaultExplanation) := by
    rw [hexp]
    exact fun h => h.elim (jsTrim_ne_nil_of e het) hed
  have hnorm : getCodeExplanationNormalize (some (.obj fields)) content
      = validatedRecord (.obj fields) := by
    show (match validateResponse (.obj fields) with
      | .ok r => r
      | .error _ => parseFallback content) = validatedRecord (.obj fields)
    rw [validateResponse_eq _ hv, if_neg hcond]
  rw [hnorm]
  constructor
  · show structArrayField (propGet (.obj fields) (("bug_suggestions").data)) bugKeep
        = xs.filter bugComplete
    rw [show propGet (.obj fields) (("bug_suggestions").data)
        = objLookup fields (("bug_suggestions").data) from rfl, hxs]
    show xs.filter bugKeep = xs.filter bugComplete
    refine List.filter_congr fun x hx => ?_
    have hobj := List.all_eq_true.mp hxo x hx
    cases x with
    | obj gs =>
      show (jsTruthy (.obj gs) && bugComplete (.obj gs)) = bugComplete (.obj gs)
      rw [show jsTruthy (.obj gs) = true from rfl, Bool.true_and]
    | null => cases hobj
    | bool b => cases hobj
    | num n => cases hobj
    | str s => cases hobj
    | arr zs => cases hobj
  · show structArrayField (propGet (.obj fields) (("alternative_suggestions").data)) altKeep
        = ys.filter altComplete
    rw [show propGet (.obj fields) (("alternative_suggestions").data)
        = objLookup fields (("alternative_suggestions").data) from rfl, hys]
    show ys.filter altKeep = ys.filter altComplete
    refine List.filter_congr fun y hy => ?_
    have hobj := List.all_eq_true.mp hyo y hy
    cases y with
    | obj gs =>
      show (jsTruthy (.obj gs) && altComplete (.obj gs)) = altComplete (.obj gs)
      rw [show jsTruthy (.obj gs) = true from rfl, Bool.true_and]
    | null => cases hobj
    | bool b => cases hobj
    | num n => cases hobj
    | str s => cases hobj
    | arr zs => cases hobj

/-- A complete bug entry: both required sub-fields are strings. -/
def bugEntryCompleteW : JsonValue :=
  .obj [(("bug").data, .str ("Off-by-one in loop bound").data),
        (("fix_suggestion").data, .str ("Use a strict bound").data)]

/-- An incomplete bug entry: `fix_suggestion` missing. -/
def bugEntryMissingW : JsonValue :=
  .obj [(("bug").data, .str ("Unchecked null").data)]

/-- An incomplete bug entry: `fix_suggestion` has a non-string type. -/
def bugEntryWrongTypeW : JsonValue :=
  .obj [(("bug").data, .str ("Division by zero").data),
        (("fix_suggestion").data, .num 5)]

/-- A complete alternative entry. -/
def altEntryCompleteW : JsonValue :=
  .obj [(("description").data, .str ("Use a ternary").data),
        (("code").data, .str ("x ? a : b").data)]

/-- An incomplete alternative entry: `code` missing. -/
def altEntryMissingW : JsonValue :=
  .obj [(("description").data, .str ("Use recursion").data)]

/-- A parsed response mixing complete and incomplete struct-array
entries. -/
def parsedFieldsW : List (Str × JsonValue) :=
  [(("explanation_markdown").data, .str ("Adds numbers.").data),
   (("bug_suggestions").data,
     .arr [bugEntryCompleteW, bugEntryMissingW, bugEntryWrongTypeW]),
   (("alternative_suggestions").data,
     .arr [altEntryCompleteW, altEntryMissingW])]

/-- Witness for C2: on a concrete mixed response, normalization keeps
exactly the complete bug and alternative entries. -/
theorem struct_array_completeness_witness :
    jsTrim (("Adds numbers.").data) ≠ [] ∧
    (getCodeExplanationNormalize (some (.obj parsedFieldsW)) []).bug_suggestions
        = [bugEntryCompleteW] ∧
    (getCodeExplanationNormalize (some (.obj parsedFieldsW)) []).alternative_suggestions
        = [altEntryCompleteW] := by
  have h := struct_array_completeness parsedFieldsW [] (("Adds numbers.").data)
      [bugEntryCompleteW, bugEntryMissingW, bugEntryWrongTypeW]
      [altEntryCompleteW, altEntryMissingW]
      rfl (by decide) (by decide) rfl rfl (by decide) (by decide)
  exact ⟨by decide, h.1.trans rfl, h.2.trans rfl⟩

/-- A `JSON.parse` oracle for payloads that are not parseable JSON: every
parse attempt throws. -/
def jsonParseNone : Str → Option JsonValue := fun _ => none

/-- Counterexample to C3 as stated: for the plain-prose payload
`"hello prose"` (no section labels, no parseable JSON), the normalized
result's `explanation_markdown` is not the original payload verbatim —
the source prepends a fixed parse-error header before the raw output. -/
theorem fallback_verbatim_counterexample :
    (normalizeCompletion jsonParseNone (("hello prose").data)).explanation_markdown
      ≠ ("hello prose").data := by
  decide

/-- C3 (amended): for every payload whose cleaned form fails to parse as
JSON, the fallback analysis's `explanation_markdown` is the fixed
parse-error header followed by the original payload verbatim, its
`warnings` is exactly one parse-failure entry, and every other field is
its default (language `"Unknown"`, all other arrays empty). -/
theorem fallback_structure (jsonParse : Str → Option JsonValue) (content : Str)
    (h : jsonParse (cleanContent content) = none) :
    (normalizeCompletion jsonParse content).explanation_markdown
        = fallbackHeader ++ content ∧
    (normalizeCompletion jsonParse content).warnings = [parseFailureWarning] ∧
    (normalizeCompletion jsonParse content).language = ("Unknown").data ∧
    (normalizeCompletion jsonParse content).style_suggestions = [] ∧
    (normalizeCompletion jsonParse content).code_smells = [] ∧
    (normalizeCompletion jsonParse content).security_vulnerabilities = [] ∧
    (normalizeCompletion jsonParse content).bug_suggestions = [] ∧
    (normalizeCompletion jsonParse content).alternative_suggestions = [] := by
  unfold normalizeCompletion
  rw [h]
  exact ⟨rfl, rfl, rfl, rfl, rfl, rfl, rfl, rfl⟩

/-- Witness for the amended C3 at the concrete prose payload. -/
theorem fallback_structure_witness :
    jsonParseNone (cleanContent (("hello prose").data)) = none ∧
    (normalizeCompletion jsonParseNone (("hello prose").data)).explanation_markdown
        = fallbackHeader ++ ("hello prose").data ∧
    (normalizeCompletion jsonParseNone (("hello prose").data)).warnings
        = [parseFailureWarning] := by
  have h := fallback_structure jsonParseNone (("hello prose").data) rfl
  exact ⟨rfl, h.1, h.2.1⟩

/-- The spec's end-to-end example payload, with its single-newline
separation between the two sections. -/
def analysisSingleNewline : Str :=
  ("**Detected Language**: Python\n**Comprehensive Analysis**: adds two numbers").data

/-- The same payload with blank-line separation, which the section
pattern (lookahead `\n\n\*\*`) actually requires. -/
def analysisBlankLine : Str :=
  ("**Detected Language**: Python\n\n**Comprehensive Analysis**: adds two numbers").data

/-- Counterexample to C4 as stated: on the literal single-newline example
payload, the Detected Language section's content is not `"Python"` — the
section pattern only stops at a blank line before the next bolded label,
so the language section swallows the rest of the payload. -/
theorem end_to_end_example_counterexample :
    (parseAnalysis analysisSingleNewline jsonParseNone).sections.head?
      = some ⟨("Detected Language").data,
          .scalar (("Python\n**Comprehensive Analysis**: adds two numbers").data)⟩ ∧
    ("Python\n**Comprehensive Analysis**: adds two numbers").data ≠ ("Python").data := by
  exact ⟨rfl, by decide⟩

/-- C4 (amended): with the blank-line separation the section pattern
requires, the example normalizes to exactly a Detected Language section
`"Python"` and a Comprehensive Analysis section `"adds two numbers"`,
with no other sections (every list field absent/empty) and no Learn More
links. -/
theorem end_to_end_example_blank_line :
    (parseAnalysis analysisBlankLine jsonParseNone).sections
      = [⟨("Detected Language").data, .scalar (("Python").data)⟩,
         ⟨("Comprehensive Analysis").data, .scalar (("adds two numbers").data)⟩] ∧
    (parseAnalysis analysisBlankLine jsonParseNone).learnMoreLinks = none := by
  exact ⟨rfl, rfl⟩

/-- C5: the stale-response guard the claim asserts does not exist.  After
a chat request is issued and `handleClear` resets the conversation, the
request resolving appends its content to the cleared history: the code's
functional updater `prev => [...prev, msg]` runs unconditionally, with no
request-is-still-current check.  Evaluated at the failing input: issue
`"explain this"`, clear (history empty), resolve with `"stale answer"` —
the cleared conversation ends up holding the stale assistant turn. -/
theorem stale_response_resurrected :
    (handleClear (sendChat initialPageState (("explain this").data))).chatHistory = [] ∧
    (resolveChatSuccess
        (handleClear (sendChat initialPageState (("explain this").data)))
        (("stale answer").data)).chatHistory
      = [⟨.assistant, ("stale answer").data⟩] := by
  exact ⟨rfl, rfl⟩

theorem isEmpty_false_of_ne (l : Str) (h : l ≠ []) : l.isEmpty = false := by
  cases l with
  | nil => exact absurd rfl h
  | cons c t => rfl

/-- C6 (amended): the route fails fast — with a 500 configuration-error
response naming the setting and no network call — whenever the API key is
unset/empty, the replica id is unset/empty or one of the two placeholder
values the route recognizes, or the user id is unset/empty.  (A
placeholder API key or user id is not detected; see the
counterexample.) -/
theorem config_missing_short_circuit (env : SensayEnv)
    (reqJson : Except Str JsonValue) (net : NetOutcome)
    (h : envFalsy env.apiKey = true ∨ replicaIdRejected env.replicaId = true ∨
      envFalsy env.userId = true) :
    (sensayPOST env reqJson net).sentRequest = none ∧
    (sensayPOST env reqJson net).response.status = 500 ∧
    (envFalsy env.apiKey = true →
      (sensayPOST env reqJson net).response.error = some msgApiKeyMissing) ∧
    (envFalsy env.apiKey = false → replicaIdRejected env.replicaId = true →
      (sensayPOST env reqJson net).response.error = some msgReplicaIdMissing) ∧
    (envFalsy env.apiKey = false → replicaIdRejected env.replicaId = false →
      envFalsy env.userId = true →
      (sensayPOST env reqJson net).response.error = some msgUserIdMissing) := by
  cases h1 : envFalsy env.apiKey with
  | true => simp [sensayPOST, h1]
  | false =>
    cases h2 : replicaIdRejected env.replicaId with
    | true => simp [sensayPOST, h1, h2]
    | false =>
      cases h3 : envFalsy env.userId with
      | true => simp [sensayPOST, h1, h2, h3]
      | false =>
        rw [h1, h2, h3] at h
        rcases h with h | h | h <;> exact absurd h (by simp)

/-- A configuration with the API key unset. -/
def envMissingKeyW : SensayEnv :=
  ⟨none, some (("replica-1").data), some (("user-1").data), none⟩

/-- A well-formed request body (`code` and `question` both set). -/
def reqOkW : Except Str JsonValue :=
  .ok (.obj [(("code").data, .str (("x=1").data)),
             (("question").data, .str (("why").data))])

/-- A successful upstream outcome. -/
def netOkW : NetOutcome :=
  .resp true 200 (("OK").data)
    (some (.obj [(("success").data, .bool true),
                 (("content").data, .str (("hi").data))]))

/-- Witness for the amended C6: with the API key unset, the route answers
with the key-naming configuration error and no provider call is made. -/
theorem config_missing_short_circuit_witness :
    envFalsy envMissingKeyW.apiKey = true ∧
    (sensayPOST envMissingKeyW reqOkW netOkW).sentRequest = none ∧
    (sensayPOST envMissingKeyW reqOkW netOkW).response.status = 500 ∧
    (sensayPOST envMissingKeyW reqOkW netOkW).response.error = some msgApiKeyMissing := by
  have h := config_missing_short_circuit envMissingKeyW reqOkW netOkW (Or.inl rfl)
  exact ⟨rfl, h.1, h.2.1, h.2.2.1 rfl⟩

/-- A configuration whose API key is the documented placeholder value
(the repository's own `.env` template sets
`SENSAY_API_KEY=YOUR_SENSAY_ORGANIZATION_SECRET_KEY_HERE`). -/
def envPlaceholderKeyW : SensayEnv :=
  ⟨some (("YOUR_SENSAY_ORGANIZATION_SECRET_KEY_HERE").data),
   some (("replica-1").data), some (("user-1").data), none⟩

/-- Counterexample to C6 as stated: with the API key set to the obvious
placeholder value from the repository's own `.env` template, the route
does not fail with a configuration error — it attempts the network call
(placeholder detection exists only for the replica id). -/
theorem config_missing_short_circuit_counterexample :
    (sensayPOST envPlaceholderKeyW reqOkW netOkW).sentRequest.isSome = true ∧
    (sensayPOST envPlaceholderKeyW reqOkW netOkW).response.error = none ∧
    (sensayPOST envPlaceholderKeyW reqOkW netOkW).response.status = 200 := by
  exact ⟨rfl, rfl, rfl⟩

theorem hexDigitUpper_mem (n : Nat) :
    hexDigitUpper n ∈ (("0123456789ABCDEF").data) := by
  unfold hexDigitUpper
  split <;> decide

theorem uriUnreserved_safe (c : Char) (h : uriUnreserved c = true) :
    c ≠ '&' ∧ c ≠ '"' ∧ c ≠ '<' := by
  refine ⟨?_, ?_, ?_⟩ <;> intro hc <;> rw [hc] at h <;> exact absurd h (by decide)

theorem hexDigitUpper_safe (n : Nat) :
    hexDigitUpper n ≠ '&' ∧ hexDigitUpper n ≠ '"' ∧ hexDigitUpper n ≠ '<' := by
  have hall : ∀ x ∈ (("0123456789ABCDEF").data),
      x ≠ '&' ∧ x ≠ '"' ∧ x ≠ '<' := by decide
  exact hall _ (hexDigitUpper_mem n)

theorem encodeChar_safe (c d : Char) (hd : d ∈ encodeChar c) :
    d ≠ '&' ∧ d ≠ '"' ∧ d ≠ '<' := by
  unfold encodeChar at hd
  by_cases h : uriUnreserved c = true
  · rw [if_pos h] at hd
    rw [List.mem_singleton.mp hd]
    exact uriUnreserved_safe c h
  · rw [if_neg h] at hd
    rcases List.mem_flatten.mp hd with ⟨l, hl, hdl⟩
    rcases List.mem_map.mp hl with ⟨b, _, rfl⟩
    unfold percentByte at hdl
    rcases List.mem_cons.mp hdl with rfl | hdl
    · exact ⟨by decide, by decide, by decide⟩
    rcases List.mem_cons.mp hdl with rfl | hdl
    · exact hexDigitUpper_safe _
    rcases List.mem_cons.mp hdl with rfl | hdl
    · exact hexDigitUpper_safe _
    cases hdl

theorem encodeURIComponent_safe (q : Str) (d : Char)
    (hd : d ∈ encodeURIComponent q) :
    d ≠ '&' ∧ d ≠ '"' ∧ d ≠ '<' := by
  unfold encodeURIComponent at hd
  rcases List.mem_flatten.mp hd with ⟨l, hl, hdl⟩
  rcases List.mem_map.mp hl with ⟨c, _, rfl⟩
  exact encodeChar_safe c d hdl

/-- C7: Learn-more URL derivation is deterministic and injection-safe.
Every link the component stores for the Learn More dialog has a URL equal
to the fixed Google-search template applied to the percent-encoded query
phrase — a pure function of the phrase, so recomputation always yields
the same URL, and model-provided URLs are never used directly — and for
any phrase (in particular one containing `&`, `"` or `<`) the resulting
URL contains no unescaped instance of those characters. -/
theorem learn_more_url_derivation (md : Str) (jsonParse : Str → Option JsonValue)
    (links : List LearnMoreLink) (L : LearnMoreLink)
    (hl : (parseAnalysis md jsonParse).learnMoreLinks = some links)
    (hm : L ∈ links) :
    L.url = googleSearchBase ++ encodeURIComponent L.title ∧
    '&' ∉ L.url ∧ '"' ∉ L.url ∧ '<' ∉ L.url := by
  have hl' : extractLearnMoreLinks md = some links := hl
  unfold extractLearnMoreLinks at hl'
  cases hmatch : matchSection learnMoreKey md with
  | none => rw [hmatch] at hl'; cases hl'
  | some content =>
    rw [hmatch] at hl'
    dsimp only at hl'
    by_cases hempty : listItems content = []
    · rw [if_pos hempty] at hl'; cases hl'
    · rw [if_neg hempty] at hl'
      have hlinks := Option.some.inj hl'
      rw [← hlinks] at hm
      have hm' := List.mem_of_mem_take hm
      rcases List.mem_map.mp hm' with ⟨q, _, rfl⟩
      refine ⟨rfl, ?_, ?_, ?_⟩ <;> intro habs <;>
        rcases List.mem_append.mp habs with hbase | henc
      · exact absurd hbase (by decide)
      · exact absurd rfl (encodeURIComponent_safe q '&' henc).1
      · exact absurd hbase (by decide)
      · exact absurd rfl (encodeURIComponent_safe q '"' henc).2.1
      · exact absurd hbase (by decide)
      · exact absurd rfl (encodeURIComponent_safe q '<' henc).2.2

/-- A Learn More section whose single query phrase contains `&`, `"` and
`<`. -/
def learnMoreMdW : Str :=
  ("**Learn More Links**:\n- a&b\"c<d").data

/-- The link the component derives for that phrase. -/
def learnMoreLinkW : LearnMoreLink :=
  ⟨("a&b\"c<d").data, ("https://www.google.com/search?q=a%26b%22c%3Cd").data⟩

/-- Witness for C7 at the concrete hostile phrase. -/
theorem learn_more_url_derivation_witness :
    (parseAnalysis learnMoreMdW jsonParseNone).learnMoreLinks = some [learnMoreLinkW] ∧
    learnMoreLinkW ∈ [learnMoreLinkW] ∧
    learnMoreLinkW.url = googleSearchBase ++ encodeURIComponent learnMoreLinkW.title ∧
    '&' ∉ learnMoreLinkW.url := by
  have h := learn_more_url_derivation learnMoreMdW jsonParseNone [learnMoreLinkW]
      learnMoreLinkW rfl (List.mem_singleton.mpr rfl)
  exact ⟨rfl, List.mem_singleton.mpr rfl, h.1, h.2.1⟩

/-- C8: Conversation append-only plus reset.  After any number of sent
chat messages, one `handleClear` leaves the turn log empty; one
subsequent send yields exactly the single newly appended user turn (no
pre-reset turn is resurrected); and sending always appends the typed turn
at the end of the existing log — never reordering and never
deduplicating, since the update is `prev ++ [turn]` regardless of the
log's contents. -/
theorem conversation_append_only_reset (s : PageState) (msgs : List Str) (m : Str)
    (hm : jsTrim m ≠ []) :
    (handleClear (sendAllChat s msgs)).chatHistory = [] ∧
    (sendChat (handleClear (sendAllChat s msgs)) m).chatHistory = [⟨.user, m⟩] ∧
    (∀ t : PageState, jsTrim t.currentUserChatMessage ≠ [] →
      (handleSendChatMessage t).chatHistory
        = t.chatHistory ++ [⟨.user, t.currentUserChatMessage⟩]) := by
  have happend : ∀ t : PageState, jsTrim t.currentUserChatMessage ≠ [] →
      (handleSendChatMessage t).chatHistory
        = t.chatHistory ++ [⟨.user, t.currentUserChatMessage⟩] := by
    intro t ht
    unfold handleSendChatMessage
    rw [isEmpty_false_of_ne _ ht]
    rfl
  refine ⟨rfl, ?_, happend⟩
  have h := happend (typeChatMessage (handleClear (sendAllChat s msgs)) m) hm
  exact h

/-- Witness for C8: two sends, a clear, then one more send. -/
theorem conversation_append_only_reset_witness :
    jsTrim (("next question").data) ≠ [] ∧
    (handleClear (sendAllChat initialPageState
        [("m1").data, ("m2").data])).chatHistory = [] ∧
    (sendChat (handleClear (sendAllChat initialPageState
        [("m1").data, ("m2").data])) (("next question").data)).chatHistory
      = [⟨.user, ("next question").data⟩] := by
  have h := conversation_append_only_reset initialPageState
      [("m1").data, ("m2").data] (("next question").data) (by decide)
  exact ⟨by decide, h.1, h.2.1⟩

/-- A configuration with a nine-character API key: `substring(0, 10)`
returns the whole credential. -/
def envShortKeyW : SensayEnv :=
  ⟨some (("secret123").data), some (("replica-1").data),
   some (("user-1").data), none⟩

/-- Counterexample to C9 as stated: the Gateway does log credential
values — the module-initialization log prints the first ten characters of
the API key, so for the nine-character key `secret123` the entire
credential value appears in a log line. -/
theorem credential_logged_counterexample :
    ((moduleInitLogs envShortKeyW).any fun l =>
      containsSub l (("secret123").data)) = true := by
  rfl

/-- C9 (amended): the values the route returns upward are independent of
the credential — two executions differing only in a (set, non-empty) API
key produce identical responses and make a provider call in the same
cases, the key reaching only the outbound request's auth header — but the
module-initialization logging does print the key's first ten characters
(the whole key when it is at most ten characters long). -/
theorem credential_noninterference (k k' : Str)
    (rid uid ver : Option Str) (reqJson : Except Str JsonValue)
    (net : NetOutcome) (hk : k ≠ []) (hk' : k' ≠ []) :
    (sensayPOST ⟨some k, rid, uid, ver⟩ reqJson net).response
      = (sensayPOST ⟨some k', rid, uid, ver⟩ reqJson net).response ∧
    (sensayPOST ⟨some k, rid, uid, ver⟩ reqJson net).sentRequest.isSome
      = (sensayPOST ⟨some k', rid, uid, ver⟩ reqJson net).sentRequest.isSome := by
  have e1 : envFalsy (some k) = false := isEmpty_false_of_ne k hk
  have e2 : envFalsy (some k') = false := isEmpty_false_of_ne k' hk'
  unfold sensayPOST
  rw [show (⟨some k, rid, uid, ver⟩ : SensayEnv).apiKey = some k from rfl,
      show (⟨some k', rid, uid, ver⟩ : SensayEnv).apiKey = some k' from rfl,
      e1, e2]
  simp only [Bool.false_eq_true, if_false]
  cases hrr : replicaIdRejected rid with
  | true => exact ⟨rfl, rfl⟩
  | false =>
    cases hu : envFalsy uid with
    | true => exact ⟨rfl, rfl⟩
    | false =>
      cases reqJson with
      | error m => exact ⟨rfl, rfl⟩
      | ok body =>
        cases body with
        | null => exact ⟨rfl, rfl⟩
        | bool b =>
          by_cases ht : (!optTruthy (propGet (.bool b) ("code").data) ||
              !optTruthy (propGet (.bool b) ("question").data)) = true <;>
            simp [ht]
        | num n =>
          by_cases ht : (!optTruthy (propGet (.num n) ("code").data) ||
              !optTruthy (propGet (.num n) ("question").data)) = true <;>
            simp [ht]
        | str s =>
          by_cases ht : (!optTruthy (propGet (.str s) ("code").data) ||
              !optTruthy (propGet (.str s) ("question").data)) = true <;>
            simp [ht]
        | arr xs =>
          by_cases ht : (!optTruthy (propGet (.arr xs) ("code").data) ||
              !optTruthy (propGet (.arr xs) ("question").data)) = true <;>
            simp [ht]
        | obj fs =>
          by_cases ht : (!optTruthy (propGet (.obj fs) ("code").data) ||
              !optTruthy (propGet (.obj fs) ("question").data)) = true <;>
            simp [ht]

/-- Witness for the amended C9: two concrete runs differing only in the
API key return identical responses. -/
theorem credential_noninterference_witness :
    ("secret123").data ≠ [] ∧ ("other-key-42").data ≠ [] ∧
    (sensayPOST ⟨some ("secret123").data, some ("replica-1").data,
        some ("user-1").data, none⟩ reqOkW netOkW).response
      = (sensayPOST ⟨some ("other-key-42").data, some ("replica-1").data,
        some ("user-1").data, none⟩ reqOkW netOkW).response := by
  have h := credential_noninterference (("secret123").data) (("other-key-42").data)
      (some ("replica-1").data) (some ("user-1").data) none reqOkW netOkW
      (by decide) (by decide)
  exact ⟨by decide, by decide, h.1⟩

/-- C10: the derived Learn More link list is capped at ten entries — when
the Learn More section yields more than ten bullet-line query phrases,
the stored dialog links are exactly the first ten phrases (in original
order) converted to search links, and the rest are silently dropped. -/
theorem learn_more_links_capped (md : Str) (jsonParse : Str → Option JsonValue)
    (content : Str)
    (hmatch : matchSection learnMoreKey md = some content)
    (hlen : 10 < (listItems content).length) :
    (parseAnalysis md jsonParse).learnMoreLinks
      = some (((listItems content).take 10).map mkLearnMoreLink) ∧
    (((listItems content).take 10).map mkLearnMoreLink).length = 10 := by
  constructor
  · show extractLearnMoreLinks md = _
    unfold extractLearnMoreLinks
    rw [hmatch]
    have hne : listItems content ≠ [] := by
      intro h
      rw [h] at hlen
      exact absurd hlen (by decide)
    dsimp only
    rw [if_neg hne, List.map_take]
  · rw [List.length_map, List.length_take]
    omega

/-- A Learn More section with eleven bullet query phrases. -/
def learnMore11MdW : Str :=
  ("**Learn More Links**:\n- q1\n- q2\n- q3\n- q4\n- q5\n- q6\n- q7\n- q8\n- q9\n- q10\n- q11").data

/-- The matched (trimmed) content of that section. -/
def learnMore11ContentW : Str :=
  ("- q1\n- q2\n- q3\n- q4\n- q5\n- q6\n- q7\n- q8\n- q9\n- q10\n- q11").data

/-- Witness for C10 at the eleven-phrase section: exactly the first ten
phrases become links. -/
theorem learn_more_links_capped_witness :
    matchSection learnMoreKey learnMore11MdW = some learnMore11ContentW ∧
    10 < (listItems learnMore11ContentW).length ∧
    (parseAnalysis learnMore11MdW jsonParseNone).learnMoreLinks
      = some (((listItems learnMore11ContentW).take 10).map mkLearnMoreLink) := by
  have h := learn_more_links_capped learnMore11MdW jsonParseNone
      learnMore11ContentW rfl (by decide)
  exact ⟨rfl, by decide, h.1⟩
